import Mathlib

/-!
Verification of the two-stage report pipeline in `src/Auditing/new_report.py`
(an Airflow DAG: MySQL extraction → CSV artifact → SMTP delivery with
attachment).  Strings manipulated character-wise by the Python code are
modelled as `List Char`; file contents as `List Char`; raw attachment bytes
as `List Nat` (each < 256); database and SMTP side effects as explicit
event traces parameterised by which external call succeeds or fails.
-/

namespace NewReport

/-! ### Python string primitives used by the code -/

/-- The ASCII whitespace characters removed by Python's `str.strip()`. -/
def pyIsSpace (c : Char) : Bool :=
  c = ' ' || c = '\t' || c = '\n' || c = '\r' || c = '\x0b' || c = '\x0c'

/-- Python's `s.split(sep)` for a one-character separator: splits at every
occurrence of `sep`, keeping empty segments (so `"".split(',') = [""]`,
`"a,".split(',') = ["a", ""]`). -/
def splitSep (sep : Char) : List Char → List (List Char)
  | [] => [[]]
  | c :: cs =>
    if c = sep then [] :: splitSep sep cs
    else
      match splitSep sep cs with
      | t :: ts => (c :: t) :: ts
      | [] => [[c]]

/-- Joining segments with a one-character separator (inverse direction of
`splitSep`; used to model writing delimited lines). -/
def joinSep (sep : Char) : List (List Char) → List Char
  | [] => []
  | [x] => x
  | x :: y :: xs => x ++ sep :: joinSep sep (y :: xs)

/-- Python's `str.strip()`: drop leading whitespace, then drop trailing
whitespace. -/
def pyStrip (l : List Char) : List Char :=
  (((l.dropWhile pyIsSpace).reverse).dropWhile pyIsSpace).reverse

/-- `src/Auditing/new_report.py:172`:
`recipients_list = [email.strip() for email in recipient_emails.split(',')]` —
the exact list handed to `server.sendmail`. -/
def recipientsList (s : List Char) : List (List Char) :=
  (splitSep ',' s).map pyStrip

/-- The Recipients set as worded by the spec: "derived by splitting a
comma-separated string and trimming whitespace", duplicates kept. -/
def specSplitTrimTokens (s : List Char) : List (List Char) :=
  (splitSep ',' s).map pyStrip

/-! ### The tabular data model and the CSV artifact

`fetch_mysql_data_and_save_as_csv` collects the query result into a
dataframe and writes it with `df.to_csv(CSV_FILE_PATH, index=False)`:
a header row of column names, then one row per data row, integers printed
as decimal text, nulls as empty fields, strings quoted only when they
contain the delimiter, the quote character, or a line break. -/

/-- A cell of a `TabularResult`: an integer, a string, or SQL NULL. -/
inductive CellVal where
  | intVal (i : ℤ)
  | strVal (s : List Char)
  | nullVal
deriving DecidableEq

/-- Ordered named columns and ordered rows, as produced by the query. -/
structure TabularResult where
  cols : List (List Char)
  rows : List (List CellVal)
deriving DecidableEq

/-- The character for a single decimal digit. -/
def digitChar (d : Nat) : Char := Char.ofNat (48 + d)

/-- Decimal digits of `n`, most significant first, by repeated division;
`fuel` bounds the recursion depth (any `fuel > n` is enough). -/
def natToCharsAux : Nat → Nat → List Char
  | 0, _ => []
  | fuel + 1, n =>
    if n < 10 then [digitChar n]
    else natToCharsAux fuel (n / 10) ++ [digitChar (n % 10)]

/-- Decimal text of a natural number (most significant digit first). -/
def natToChars (n : Nat) : List Char := natToCharsAux (n + 1) n

/-- Decimal text of an integer, with a leading minus sign when negative. -/
def intToChars (i : ℤ) : List Char :=
  if i < 0 then '-' :: natToChars i.natAbs else natToChars i.toNat

/-- Numeric value of a decimal digit character. -/
def charVal (c : Char) : Nat := c.toNat - 48

/-- Parse an unsigned decimal numeral; `none` unless the text is non-empty
and all digits. -/
def parseNatChars (s : List Char) : Option Nat :=
  if s = [] then none
  else if s.all Char.isDigit then
    some (Nat.ofDigits 10 ((s.map charVal).reverse))
  else none

/-- Parse an optionally negated decimal numeral. -/
def parseIntChars (s : List Char) : Option ℤ :=
  match s with
  | [] => none
  | c :: rest =>
    if c = '-' then (parseNatChars rest).map (fun n => -(n : ℤ))
    else (parseNatChars (c :: rest)).map (fun n => (n : ℤ))

/-- Reading one field back: empty text is null, decimal text is a number,
anything else is a string. -/
def parseCell (s : List Char) : CellVal :=
  if s = [] then .nullVal
  else
    match parseIntChars s with
    | some i => .intVal i
    | none => .strVal s

/-- A field must be quoted when it contains the delimiter, the quote
character, or a line break (minimal quoting, as `to_csv` does). -/
def needsQuote (s : List Char) : Bool :=
  s.any (fun c => c = ',' || c = '"' || c = '\n' || c = '\r')

/-- Quote a field, doubling embedded quote characters. -/
def quoteField (s : List Char) : List Char :=
  '"' :: (s.map (fun c => if c = '"' then ['"', '"'] else [c])).flatten ++ ['"']

/-- Textual encoding of one cell. -/
def encodeCell : CellVal → List Char
  | .intVal i => intToChars i
  | .strVal s => if needsQuote s then quoteField s else s
  | .nullVal => []

/-- Textual encoding of one column name in the header row. -/
def encodeName (s : List Char) : List Char :=
  if needsQuote s then quoteField s else s

/-- The delimited text written by `df.to_csv(..., index=False)` at
`src/Auditing/new_report.py:104`: header row first, then one line per row. -/
def writeCSV (r : TabularResult) : List Char :=
  joinSep '\n'
    (joinSep ',' (r.cols.map encodeName) ::
      r.rows.map (fun row => joinSep ',' (row.map encodeCell)))

/-- Modelled from the spec: re-reading the artifact file as a table (the
repository never re-reads the file, so the decoder follows the spec's
encoding: header row of column names, then data rows; empty field → null,
decimal text → number, other text → string). -/
def readCSV (text : List Char) : TabularResult :=
  match splitSep '\n' text with
  | [] => ⟨[], []⟩
  | header :: dataLines =>
    ⟨splitSep ',' header, dataLines.map (fun l => (splitSep ',' l).map parseCell)⟩

/-! ### Cell and line round-trips -/

/-- Cells carrying a number or NULL (the shape the aggregation query in the
code produces: `creator_id` and three counts). -/
def numericOrNull : CellVal → Bool
  | .strVal _ => false
  | _ => true

/-! ### The extraction query and the message template -/

/-- The SQL single-quote character, as a one-character string. -/
def sqlQuote : String := Char.toString (Char.ofNat 39)

/-- `sql_query` (`src/Auditing/new_report.py:78-86`) with the filter date
abstracted: the same date is compared for equality against
`DATE(gvd.stage_2_completed_at)`, `DATE(gvd.stage_1_completed_at)` and
`DATE(gvd.stage_3_completed_at)`. -/
def sqlQueryText (d : String) : String :=
  "SELECT pl.creator_id, COUNT(CASE WHEN gvd.stage_1_completed_at IS NOT NULL THEN 1 END) AS stage_1_count, COUNT(CASE WHEN gvd.stage_2_completed_at IS NOT NULL THEN 1 END) AS stage_2_count, COUNT(CASE WHEN gvd.stage_3_completed_at IS NOT NULL THEN 1 END) AS stage_3_count FROM process_leads pl LEFT JOIN gpay_visit_details gvd ON gvd.lead_id = pl.id WHERE pl.pipeline_id = 33 AND (DATE(gvd.stage_2_completed_at) = "
    ++ sqlQuote ++ d ++ sqlQuote
    ++ " OR DATE(gvd.stage_1_completed_at) = "
    ++ sqlQuote ++ d ++ sqlQuote
    ++ " OR DATE(gvd.stage_3_completed_at) = "
    ++ sqlQuote ++ d ++ sqlQuote
    ++ ") GROUP BY pl.creator_id ORDER BY pl.creator_id;"

/-- The query the extraction stage executes for a run: `sql_query` is a
fixed string containing the literal date `2025-08-04`; the run date of the
triggering run does not occur in it (`fetch_mysql_data_and_save_as_csv`
takes no date parameter and reads no `kwargs`). -/
def builtQuery (_run_date : String) : String := sqlQueryText "2025-08-04"

/-- `msg['Subject'] = f"Daily Leads Report - {kwargs['ds']}"`
(`src/Auditing/new_report.py:127`). -/
def emailSubject (ds : String) : String := "Daily Leads Report - " ++ ds

/-! ### The artifact file on disk -/

/-- Lines 101-102: `if os.path.exists(CSV_FILE_PATH): os.remove(CSV_FILE_PATH)`. -/
def removeIfExists (f : Option (List Char)) : Option (List Char) :=
  match f with
  | some _ => none
  | none => none

/-- Line 104: `df.to_csv(CSV_FILE_PATH, index=False)` creates the file with
exactly the serialized content (write mode, not append). -/
def toCsvWrite (_f : Option (List Char)) (content : List Char) : Option (List Char) :=
  some content

/-- The artifact-writing tail of `fetch_mysql_data_and_save_as_csv`
(lines 100-104), acting on the state of the file at `CSV_FILE_PATH`. -/
def artifactWrite (prev : Option (List Char)) (r : TabularResult) : Option (List Char) :=
  toCsvWrite (removeIfExists prev) (writeCSV r)

/-! ### Base64 attachment encoding and message composition -/

/-- The MIME base64 alphabet used by `encoders.encode_base64`. -/
def b64Chars : List Char :=
  "ABCDEFGHIJKLMNOPQRSTUVWXYZabcdefghijklmnopqrstuvwxyz0123456789+/".toList

/-- The character for one 6-bit group. -/
def b64Char (v : Nat) : Char := b64Chars.getD v '?'

/-- The 6-bit value of one base64 character. -/
def b64Val (c : Char) : Nat := b64Chars.indexOf c

/-- Base64 encoding of a byte sequence, three bytes to four characters,
padded with `=`. -/
def encodeB64 : List Nat → List Char
  | b1 :: b2 :: b3 :: rest =>
    b64Char (b1 / 4) :: b64Char (b1 % 4 * 16 + b2 / 16)
      :: b64Char (b2 % 16 * 4 + b3 / 64) :: b64Char (b3 % 64) :: encodeB64 rest
  | [b1, b2] =>
    [b64Char (b1 / 4), b64Char (b1 % 4 * 16 + b2 / 16), b64Char (b2 % 16 * 4), '=']
  | [b1] => [b64Char (b1 / 4), b64Char (b1 % 4 * 16), '=', '=']
  | [] => []

/-- Base64 decoding, four characters to three bytes, honouring `=` padding. -/
def decodeB64 : List Char → List Nat
  | c1 :: c2 :: c3 :: c4 :: rest =>
    if c4 = '=' then
      if c3 = '=' then [b64Val c1 * 4 + b64Val c2 / 16]
      else [b64Val c1 * 4 + b64Val c2 / 16, b64Val c2 % 16 * 16 + b64Val c3 / 4]
    else
      (b64Val c1 * 4 + b64Val c2 / 16)
        :: (b64Val c2 % 16 * 16 + b64Val c3 / 4)
        :: (b64Val c3 % 4 * 64 + b64Val c4) :: decodeB64 rest
  | _ => []

/-- The message built in `send_email_with_attachment` before any transport
call (lines 124-152): subject and body templated with the run date, the
artifact's bytes base64-encoded into the single attachment part. -/
structure EmailMsg where
  subject : String
  bodyDate : String
  attachmentName : String
  attachmentB64 : List Char
deriving DecidableEq

/-- Message composition: the artifact file's bytes are read once here
(lines 144-146) and carried in the message by value; nothing re-reads the
file afterwards. -/
def composeMsg (ds : String) (fileBytes : List Nat) : EmailMsg :=
  { subject := emailSubject ds
    bodyDate := ds
    attachmentName := "leads_export.csv"
    attachmentB64 := encodeB64 fileBytes }

/-! ### Transport and database call traces -/

inductive SmtpEvent where
  | connectSSL
  | connectPlain
  | starttls
  | login
  | send
  | quit
deriving DecidableEq

/-- Which of the external SMTP calls succeed in a given run. -/
structure SmtpBehavior where
  connectOk : Bool
  starttlsOk : Bool
  loginOk : Bool
  sendOk : Bool

inductive EmailError where
  | attachmentMissing
  | transportUnreachable
  | authenticationFailed
  | sendFailed
deriving DecidableEq

/-- Result of the delivery task: the transport calls made in order, the
recipient list passed to `sendmail` (when that call was reached), and the
outcome. -/
structure SendResult where
  events : List SmtpEvent
  sentTo : Option (List (List Char))
  outcome : Except EmailError Unit

/-- Continuation after a successful connect: `server.login`, then
`server.sendmail` with `recipients_list`; the `finally` block always runs
`server.quit()` since `server` is set. -/
def smtpAfterConnect (pre : List SmtpEvent) (recips : List Char)
    (b : SmtpBehavior) : SendResult :=
  if b.loginOk = false then
    { events := pre ++ [SmtpEvent.login, SmtpEvent.quit], sentTo := none,
      outcome := .error .authenticationFailed }
  else if b.sendOk = false then
    { events := pre ++ [SmtpEvent.login, SmtpEvent.send, SmtpEvent.quit],
      sentTo := some (recipientsList recips), outcome := .error .sendFailed }
  else
    { events := pre ++ [SmtpEvent.login, SmtpEvent.send, SmtpEvent.quit],
      sentTo := some (recipientsList recips), outcome := .ok () }

/-- The SMTP section of `send_email_with_attachment` (lines 157-181):
`SMTP_SSL` when `smtp_port == 465`, otherwise `SMTP` followed by
`starttls()`; a failing constructor leaves `server = None`, so the
`finally` block closes nothing in that case. -/
def smtpSection (recips : List Char) (port : Nat) (b : SmtpBehavior) : SendResult :=
  if b.connectOk = false then
    { events := [], sentTo := none, outcome := .error .transportUnreachable }
  else if port = 465 then
    smtpAfterConnect [SmtpEvent.connectSSL] recips b
  else if b.starttlsOk = false then
    { events := [SmtpEvent.connectPlain, SmtpEvent.starttls, SmtpEvent.quit],
      sentTo := none, outcome := .error .transportUnreachable }
  else
    smtpAfterConnect [SmtpEvent.connectPlain, SmtpEvent.starttls] recips b

/-- `send_email_with_attachment` (lines 110-181): composing comes first and
`FileNotFoundError` from a missing artifact propagates (lines 143-155)
before the transport section is entered. -/
def sendEmailTask (file : Option (List Nat)) (recips : List Char)
    (port : Nat) (b : SmtpBehavior) : SendResult :=
  match file with
  | none => { events := [], sentTo := none, outcome := .error .attachmentMissing }
  | some _ => smtpSection recips port b

inductive DbEvent where
  | dbOpen
  | dbClose
deriving DecidableEq

/-- Which external call fails during `fetch_mysql_data_and_save_as_csv`. -/
inductive DbOutcome where
  | connectFail
  | queryFail
  | success (t : TabularResult)

inductive PipelineError where
  | sourceUnavailable
  | queryFailed
  | deliveryFailed (e : EmailError)

/-- Result of the extraction task: database calls in order, state of the
artifact file afterwards, and the outcome. -/
structure FetchResult where
  events : List DbEvent
  file : Option (List Char)
  outcome : Except PipelineError Unit

/-- `fetch_mysql_data_and_save_as_csv` (lines 58-107): connect, query,
close the connection in `finally` (when `connect` itself failed, `conn`
stays `None` and nothing is closed), and only on success remove and
rewrite the artifact; a connect or query error is re-raised before any
file operation. -/
def fetchTask (o : DbOutcome) (prev : Option (List Char)) : FetchResult :=
  match o with
  | .connectFail =>
    { events := [], file := prev, outcome := .error .sourceUnavailable }
  | .queryFail =>
    { events := [DbEvent.dbOpen, DbEvent.dbClose], file := prev,
      outcome := .error .queryFailed }
  | .success t =>
    { events := [DbEvent.dbOpen, DbEvent.dbClose], file := artifactWrite prev t,
      outcome := .ok () }

/-- One full run. -/
structure RunResult where
  dbEvents : List DbEvent
  smtpEvents : List SmtpEvent
  file : Option (List Char)
  emailSent : Bool
  outcome : Except PipelineError Unit

/-- `mysql_to_csv_and_email_dag` (lines 184-186):
`send_email_with_attachment(file_path=csv_file)` runs only when
`fetch_mysql_data_and_save_as_csv` succeeded. -/
def runPipeline (o : DbOutcome) (prev : Option (List Char))
    (recips : List Char) (port : Nat) (b : SmtpBehavior) : RunResult :=
  let f := fetchTask o prev
  match f.outcome with
  | .error e =>
    { dbEvents := f.events, smtpEvents := [], file := f.file,
      emailSent := false, outcome := .error e }
  | .ok _ =>
    let s := sendEmailTask (f.file.map (fun cs => cs.map Char.toNat)) recips port b
    { dbEvents := f.events, smtpEvents := s.events, file := f.file,
      emailSent := match s.outcome with | .ok _ => true | .error _ => false,
      outcome := match s.outcome with
        | .ok _ => .ok ()
        | .error e => .error (.deliveryFailed e) }

/-! ### Auxiliary definitions for the claims -/

/-- Number of connect events (either mode) in an SMTP trace. -/
def connCount (es : List SmtpEvent) : Nat :=
  es.countP (fun e => e = SmtpEvent.connectSSL || e = SmtpEvent.connectPlain)

/-- Number of `quit` (close) events in an SMTP trace. -/
def quitCount (es : List SmtpEvent) : Nat := es.count SmtpEvent.quit

/-- Whether the database stage failed before producing a result. -/
def dbFailed : DbOutcome → Bool
  | .connectFail => true
  | .queryFail => true
  | .success _ => false

/-- A one-column table whose single cell is the string "5". -/
def strTable : TabularResult := ⟨[['c']], [[CellVal.strVal ['5']]]⟩

/-- A one-column table whose single cell is the number 5. -/
def intTable : TabularResult := ⟨[['c']], [[CellVal.intVal 5]]⟩

/-- A concrete numeric table of the shape the aggregation query returns. -/
def demoTable : TabularResult :=
  ⟨["creator_id".toList, "stage_1_count".toList],
   [[CellVal.intVal 7, CellVal.intVal 0],
    [CellVal.nullVal, CellVal.intVal (-3)]]⟩

/-! ### Basic facts about `splitSep` / `joinSep` -/

theorem splitSep_ne_nil (sep : Char) (l : List Char) : splitSep sep l ≠ [] := by
  induction l with
  | nil => simp [splitSep]
  | cons c cs ih =>
    simp only [splitSep]
    by_cases h : c = sep
    · simp [h]
    · simp only [if_neg h]
      cases hs : splitSep sep cs with
      | nil => simp
      | cons t ts => simp

theorem splitSep_length (sep : Char) (l : List Char) :
    (splitSep sep l).length = l.count sep + 1 := by
  induction l with
  | nil => rfl
  | cons c cs ih =>
    by_cases h : c = sep
    · simp only [splitSep, if_pos h, List.length_cons, ih, List.count_cons]
      subst h
      simp
    · rcases hs : splitSep sep cs with _ | ⟨t, ts⟩
      · exact absurd hs (splitSep_ne_nil sep cs)
      · rw [hs] at ih
        simp only [splitSep, if_neg h, hs, List.length_cons, List.count_cons] at ih ⊢
        have hsc : ¬ sep = c := Ne.symm h
        simp [h, hsc]
        omega

theorem splitSep_no_sep (sep : Char) (l : List Char) (h : sep ∉ l) :
    splitSep sep l = [l] := by
  induction l with
  | nil => rfl
  | cons c cs ih =>
    simp only [List.mem_cons, not_or] at h
    simp only [splitSep, if_neg (Ne.symm h.1), ih h.2]

theorem splitSep_append_sep (sep : Char) (l r : List Char) (h : sep ∉ l) :
    splitSep sep (l ++ sep :: r) = l :: splitSep sep r := by
  induction l with
  | nil => simp [splitSep]
  | cons c cs ih =>
    simp only [List.mem_cons, not_or] at h
    simp only [List.cons_append, splitSep, List.append_eq, if_neg (Ne.symm h.1),
      ih h.2]

/-- Splitting undoes joining when no segment contains the separator. -/
theorem splitSep_joinSep (sep : Char) (xs : List (List Char)) (hne : xs ≠ [])
    (h : ∀ x ∈ xs, sep ∉ x) : splitSep sep (joinSep sep xs) = xs := by
  induction xs with
  | nil => exact absurd rfl hne
  | cons x ys ih =>
    cases ys with
    | nil =>
      simp only [joinSep]
      exact splitSep_no_sep sep x (h x (List.mem_cons_self x []))
    | cons y zs =>
      simp only [joinSep]
      rw [splitSep_append_sep sep x _ (h x (by simp))]
      rw [ih (by simp) (fun z hz => h z (List.mem_cons_of_mem x hz))]

/-! ### Facts about `pyStrip` -/

theorem exists_not_mem_dropWhile {p : Char → Bool} {l : List Char}
    (h : ∃ c ∈ l, p c = false) : ∃ c ∈ l.dropWhile p, p c = false := by
  induction l with
  | nil => simp at h
  | cons c cs ih =>
    rcases h with ⟨d, hd, hpd⟩
    by_cases hc : p c
    · rw [List.dropWhile_cons, if_pos hc]
      apply ih
      rcases List.mem_cons.mp hd with rfl | hmem
      · rw [hpd] at hc; exact absurd hc (by simp)
      · exact ⟨d, hmem, hpd⟩
    · rw [List.dropWhile_cons, if_neg hc]
      exact ⟨d, hd, hpd⟩

/-- A comma segment containing at least one non-whitespace character strips
to a non-empty address. -/
theorem pyStrip_ne_nil {l : List Char} (h : ∃ c ∈ l, pyIsSpace c = false) :
    pyStrip l ≠ [] := by
  unfold pyStrip
  have h1 := exists_not_mem_dropWhile (p := pyIsSpace) h
  have h2 : ∃ c ∈ (l.dropWhile pyIsSpace).reverse, pyIsSpace c = false := by
    rcases h1 with ⟨c, hc, hp⟩
    exact ⟨c, List.mem_reverse.mpr hc, hp⟩
  rcases exists_not_mem_dropWhile h2 with ⟨c, hc, _⟩
  intro hnil
  rw [List.reverse_eq_nil_iff] at hnil
  rw [hnil] at hc
  exact absurd hc (List.not_mem_nil c)

/-! ### Decimal text round-trips -/

theorem digitChar_isDigit {d : Nat} (h : d < 10) : (digitChar d).isDigit = true := by
  interval_cases d <;> decide

theorem charVal_digitChar {d : Nat} (h : d < 10) : charVal (digitChar d) = d := by
  interval_cases d <;> decide

theorem natToCharsAux_ne_nil {fuel n : Nat} (h : 0 < fuel) :
    natToCharsAux fuel n ≠ [] := by
  cases fuel with
  | zero => omega
  | succ f =>
    simp only [natToCharsAux]
    by_cases hn : n < 10
    · simp [hn]
    · simp [hn]

theorem natToChars_ne_nil (n : Nat) : natToChars n ≠ [] :=
  natToCharsAux_ne_nil (by omega)

theorem mem_natToCharsAux_isDigit :
    ∀ {fuel n : Nat} {c : Char}, c ∈ natToCharsAux fuel n → c.isDigit = true := by
  intro fuel
  induction fuel with
  | zero =>
    intro n c h
    simp [natToCharsAux] at h
  | succ f ih =>
    intro n c h
    simp only [natToCharsAux] at h
    by_cases hn : n < 10
    · rw [if_pos hn] at h
      simp at h
      rw [h]
      exact digitChar_isDigit hn
    · rw [if_neg hn] at h
      rcases List.mem_append.mp h with hm | hm
      · exact ih hm
      · simp at hm
        rw [hm]
        exact digitChar_isDigit (Nat.mod_lt n (by omega))

theorem mem_natToChars_isDigit {n : Nat} {c : Char} (h : c ∈ natToChars n) :
    c.isDigit = true :=
  mem_natToCharsAux_isDigit h

theorem ofDigits_natToCharsAux :
    ∀ {fuel n : Nat}, n < fuel →
      Nat.ofDigits 10 (((natToCharsAux fuel n).map charVal).reverse) = n := by
  intro fuel
  induction fuel with
  | zero =>
    intro n h
    omega
  | succ f ih =>
    intro n h
    simp only [natToCharsAux]
    by_cases hn : n < 10
    · rw [if_pos hn]
      simp only [List.map_cons, List.map_nil, List.reverse_singleton]
      rw [charVal_digitChar hn]
      simp [Nat.ofDigits]
    · rw [if_neg hn]
      rw [List.map_append, List.reverse_append]
      simp only [List.map_cons, List.map_nil, List.reverse_singleton,
        List.singleton_append]
      rw [charVal_digitChar (Nat.mod_lt n (by omega)), Nat.ofDigits_cons,
        ih (by omega)]
      omega

theorem parseNatChars_natToChars (n : Nat) : parseNatChars (natToChars n) = some n := by
  have hne : natToChars n ≠ [] := natToChars_ne_nil n
  have hall : (natToChars n).all Char.isDigit = true := by
    rw [List.all_eq_true]
    intro c hc
    exact mem_natToChars_isDigit hc
  unfold parseNatChars
  rw [if_neg hne, if_pos hall]
  unfold natToChars
  rw [ofDigits_natToCharsAux (by omega)]

theorem intToChars_ne_nil (i : ℤ) : intToChars i ≠ [] := by
  unfold intToChars
  by_cases hi : i < 0
  · simp [hi]
  · rw [if_neg hi]
    exact natToChars_ne_nil _

theorem mem_intToChars {i : ℤ} {c : Char} (h : c ∈ intToChars i) :
    c.isDigit = true ∨ c = '-' := by
  unfold intToChars at h
  by_cases hi : i < 0
  · rw [if_pos hi] at h
    rcases List.mem_cons.mp h with rfl | hmem
    · right; rfl
    · left; exact mem_natToChars_isDigit hmem
  · rw [if_neg hi] at h
    left
    exact mem_natToChars_isDigit h

theorem parseIntChars_intToChars (i : ℤ) : parseIntChars (intToChars i) = some i := by
  unfold intToChars
  by_cases hi : i < 0
  · rw [if_pos hi]
    simp only [parseIntChars, if_pos rfl, parseNatChars_natToChars]
    show some (-(i.natAbs : ℤ)) = some i
    congr 1
    omega
  · rw [if_neg hi]
    rcases List.exists_cons_of_ne_nil (natToChars_ne_nil i.toNat) with ⟨c, rest, hc⟩
    have hdig : c.isDigit = true := mem_natToChars_isDigit (by rw [hc]; exact List.mem_cons_self c rest)
    have hcm : ¬ c = '-' := by
      intro hcc
      rw [hcc] at hdig
      exact absurd hdig (by decide)
    rw [hc]
    simp only [parseIntChars, if_neg hcm]
    rw [← hc, parseNatChars_natToChars]
    show some ((i.toNat : ℤ)) = some i
    congr 1
    omega

theorem encodeCell_no_special {v : CellVal} (hv : numericOrNull v = true)
    {c : Char} (h : c ∈ encodeCell v) : ¬ c = ',' ∧ ¬ c = '\n' := by
  cases v with
  | strVal s => simp [numericOrNull] at hv
  | nullVal => simp [encodeCell] at h
  | intVal i =>
    simp only [encodeCell] at h
    rcases mem_intToChars h with hdig | rfl
    · constructor
      · intro hcc
        rw [hcc] at hdig
        exact absurd hdig (by decide)
      · intro hcc
        rw [hcc] at hdig
        exact absurd hdig (by decide)
    · exact ⟨by decide, by decide⟩

theorem parseCell_encodeCell {v : CellVal} (hv : numericOrNull v = true) :
    parseCell (encodeCell v) = v := by
  cases v with
  | strVal s => simp [numericOrNull] at hv
  | nullVal => decide
  | intVal i =>
    simp only [encodeCell, parseCell]
    rw [if_neg (intToChars_ne_nil i), parseIntChars_intToChars]

theorem encodeName_eq {s : List Char} (h : needsQuote s = false) :
    encodeName s = s := by
  simp [encodeName, h]

theorem not_mem_of_needsQuote_false {s : List Char} (h : needsQuote s = false) :
    ¬ ',' ∈ s ∧ ¬ '\n' ∈ s := by
  simp only [needsQuote, List.any_eq_false] at h
  constructor
  · intro hm
    have := h ',' hm
    simp at this
  · intro hm
    have := h '\n' hm
    simp at this

theorem mem_joinSep {sep : Char} {xs : List (List Char)} {c : Char}
    (h : c ∈ joinSep sep xs) : c = sep ∨ ∃ x ∈ xs, c ∈ x := by
  induction xs with
  | nil => simp [joinSep] at h
  | cons x ys ih =>
    cases ys with
    | nil =>
      right
      exact ⟨x, by simp, by simpa [joinSep] using h⟩
    | cons y zs =>
      simp only [joinSep, List.mem_append, List.mem_cons] at h
      rcases h with hx | hs | hj
      · right; exact ⟨x, by simp, hx⟩
      · left; exact hs
      · rcases ih hj with rfl | ⟨z, hz, hcz⟩
        · left; rfl
        · right; exact ⟨z, List.mem_cons_of_mem x hz, hcz⟩

/-- The CSV artifact round-trips for tables of numbers and nulls whose
column names need no quoting and whose rows match the header width. -/
theorem writeCSV_readCSV (r : TabularResult)
    (hcols : r.cols ≠ [])
    (hnames : ∀ name ∈ r.cols, needsQuote name = false)
    (hrows : ∀ row ∈ r.rows, row.length = r.cols.length)
    (hcells : ∀ row ∈ r.rows, ∀ v ∈ row, numericOrNull v = true) :
    readCSV (writeCSV r) = r := by
  have hsplit : splitSep '\n' (writeCSV r)
      = joinSep ',' (r.cols.map encodeName)
        :: r.rows.map (fun row => joinSep ',' (row.map encodeCell)) := by
    apply splitSep_joinSep
    · simp
    · intro l hl
      rcases List.mem_cons.mp hl with rfl | hdl
      · intro hmem
        rcases mem_joinSep hmem with hcc | ⟨x, hx, hcx⟩
        · exact absurd hcc (by decide)
        · rcases List.mem_map.mp hx with ⟨name, hname, rfl⟩
          rw [encodeName_eq (hnames name hname)] at hcx
          exact (not_mem_of_needsQuote_false (hnames name hname)).2 hcx
      · intro hmem
        rcases List.mem_map.mp hdl with ⟨row, hrow, rfl⟩
        rcases mem_joinSep hmem with hcc | ⟨x, hx, hcx⟩
        · exact absurd hcc (by decide)
        · rcases List.mem_map.mp hx with ⟨v, hv, rfl⟩
          exact (encodeCell_no_special (hcells row hrow v hv) hcx).2 rfl
  have hheader : splitSep ',' (joinSep ',' (r.cols.map encodeName)) = r.cols := by
    have hh1 : splitSep ',' (joinSep ',' (r.cols.map encodeName))
        = r.cols.map encodeName := by
      apply splitSep_joinSep
      · simp [hcols]
      · intro x hx
        rcases List.mem_map.mp hx with ⟨name, hname, rfl⟩
        rw [encodeName_eq (hnames name hname)]
        exact (not_mem_of_needsQuote_false (hnames name hname)).1
    rw [hh1]
    calc r.cols.map encodeName
        = r.cols.map id :=
          List.map_congr_left (fun name hname => encodeName_eq (hnames name hname))
      _ = r.cols := List.map_id _
  have hdata : (r.rows.map (fun row => joinSep ',' (row.map encodeCell))).map
      (fun l => (splitSep ',' l).map parseCell) = r.rows := by
    rw [List.map_map]
    calc r.rows.map
          ((fun l => (splitSep ',' l).map parseCell)
            ∘ fun row => joinSep ',' (row.map encodeCell))
        = r.rows.map id := by
          apply List.map_congr_left
          intro row hrow
          show (splitSep ',' (joinSep ',' (row.map encodeCell))).map parseCell = row
          have hrne : row ≠ [] := by
            intro hr
            have hlen := hrows row hrow
            rw [hr] at hlen
            simp only [List.length_nil] at hlen
            exact hcols (List.eq_nil_of_length_eq_zero hlen.symm)
          have hs : splitSep ',' (joinSep ',' (row.map encodeCell))
              = row.map encodeCell := by
            apply splitSep_joinSep
            · simp [hrne]
            · intro x hx
              rcases List.mem_map.mp hx with ⟨v, hv, rfl⟩
              intro hc
              exact (encodeCell_no_special (hcells row hrow v hv) hc).1 rfl
          rw [hs, List.map_map]
          calc row.map (parseCell ∘ encodeCell)
              = row.map id :=
                List.map_congr_left (fun v hv => parseCell_encodeCell (hcells row hrow v hv))
            _ = row := List.map_id _
      _ = r.rows := List.map_id _
  show readCSV (writeCSV r) = r
  unfold readCSV
  rw [hsplit]
  show TabularResult.mk
    (splitSep ',' (joinSep ',' (r.cols.map encodeName)))
    ((r.rows.map (fun row => joinSep ',' (row.map encodeCell))).map
      (fun l => (splitSep ',' l).map parseCell)) = r
  rw [hheader, hdata]

/-! ### Base64 facts -/

theorem b64Val_b64Char {v : Nat} (h : v < 64) : b64Val (b64Char v) = v := by
  interval_cases v <;> decide

theorem b64Char_ne_pad {v : Nat} (h : v < 64) : ¬ b64Char v = '=' := by
  interval_cases v <;> decide

theorem decodeB64_encodeB64 (B : List Nat) (h : ∀ b ∈ B, b < 256) :
    decodeB64 (encodeB64 B) = B := by
  induction B using encodeB64.induct with
  | case1 b1 b2 b3 rest ih =>
    have h1 : b1 < 256 := h b1 (by simp)
    have h2 : b2 < 256 := h b2 (by simp)
    have h3 : b3 < 256 := h b3 (by simp)
    simp only [encodeB64, decodeB64]
    rw [if_neg (b64Char_ne_pad (by omega))]
    rw [b64Val_b64Char (by omega), b64Val_b64Char (by omega),
      b64Val_b64Char (by omega), b64Val_b64Char (by omega)]
    have hb1 : b1 / 4 * 4 + (b1 % 4 * 16 + b2 / 16) / 16 = b1 := by omega
    have hb2 : (b1 % 4 * 16 + b2 / 16) % 16 * 16 + (b2 % 16 * 4 + b3 / 64) / 4 = b2 := by
      omega
    have hb3 : (b2 % 16 * 4 + b3 / 64) % 4 * 64 + b3 % 64 = b3 := by omega
    rw [hb1, hb2, hb3, ih (fun b hb => h b (by simp [hb]))]
  | case2 b1 b2 =>
    have h1 : b1 < 256 := h b1 (by simp)
    have h2 : b2 < 256 := h b2 (by simp)
    simp only [encodeB64, decodeB64]
    simp only [if_true]
    rw [if_neg (b64Char_ne_pad (by omega))]
    rw [b64Val_b64Char (by omega), b64Val_b64Char (by omega), b64Val_b64Char (by omega)]
    have hb1 : b1 / 4 * 4 + (b1 % 4 * 16 + b2 / 16) / 16 = b1 := by omega
    have hb2 : (b1 % 4 * 16 + b2 / 16) % 16 * 16 + b2 % 16 * 4 / 4 = b2 := by omega
    rw [hb1, hb2]
  | case3 b1 =>
    have h1 : b1 < 256 := h b1 (by simp)
    simp only [encodeB64, decodeB64]
    simp only [if_true]
    rw [b64Val_b64Char (by omega), b64Val_b64Char (by omega)]
    have hb1 : b1 / 4 * 4 + b1 % 4 * 16 / 16 = b1 := by omega
    rw [hb1]
  | case4 => rfl

/-! ### The claims -/

set_option maxRecDepth 40000 in
/-- C1: the claim says the date in the aggregation query's equality filter
across the three `stage_*_completed_at` columns equals the run date
supplied by the trigger.  The code violates it: `sql_query` carries the
literal `2025-08-04`, so the query built for run date `2025-08-05` is the
same fixed string (first conjunct), although a query actually
parameterized by the date would differ (second conjunct) and the subject
of the same run does use the run date (third conjunct). -/
theorem C1_query_date_hardcoded :
    builtQuery "2025-08-05" = sqlQueryText "2025-08-04"
    ∧ sqlQueryText "2025-08-05" ≠ sqlQueryText "2025-08-04"
    ∧ emailSubject "2025-08-05" ≠ emailSubject "2025-08-04" := by
  refine ⟨rfl, ?_, ?_⟩ <;> decide

/-- C2: for every non-empty comma-separated recipients string, the list
passed to `sendmail` equals the tokens split on commas with surrounding
whitespace trimmed, in order and with the same count (duplicates kept:
the length is exactly the number of comma-separated segments). -/
theorem C2_recipients_split_and_trim (s : List Char) (pre : List SmtpEvent)
    (b : SmtpBehavior) (h : s ≠ []) (hb : b.loginOk = true) :
    recipientsList s = specSplitTrimTokens s
    ∧ (recipientsList s).length = s.count ',' + 1
    ∧ (smtpAfterConnect pre s b).sentTo = some (recipientsList s) := by
  refine ⟨rfl, ?_, ?_⟩
  · rw [recipientsList, List.length_map, splitSep_length]
  · unfold smtpAfterConnect
    rw [if_neg (by simp [hb])]
    by_cases hs : b.sendOk = false
    · rw [if_pos hs]
    · rw [if_neg hs]

/-- Witness for C2 on " a@x.com ,b@y.com, a@x.com" (note the duplicate). -/
theorem C2_witness :
    recipientsList " a@x.com ,b@y.com, a@x.com".toList
      = specSplitTrimTokens " a@x.com ,b@y.com, a@x.com".toList
    ∧ (recipientsList " a@x.com ,b@y.com, a@x.com".toList).length
      = (" a@x.com ,b@y.com, a@x.com".toList).count ',' + 1
    ∧ (smtpAfterConnect [] " a@x.com ,b@y.com, a@x.com".toList
        ⟨true, true, true, true⟩).sentTo
      = some (recipientsList " a@x.com ,b@y.com, a@x.com".toList) :=
  C2_recipients_split_and_trim _ [] ⟨true, true, true, true⟩ (by decide) rfl

/-- C3 as stated is false: on the input "a@x.com,,b@y.com" the recipients
list handed to `sendmail` contains the empty string. -/
theorem C3_counterexample :
    (smtpAfterConnect [] "a@x.com,,b@y.com".toList ⟨true, true, true, true⟩).sentTo
      = some (recipientsList "a@x.com,,b@y.com".toList)
    ∧ [] ∈ recipientsList "a@x.com,,b@y.com".toList :=
  ⟨rfl, by decide⟩

/-- C3 amended: no empty-string recipient is handed to the transport
provided every comma-separated segment of the input contains a
non-whitespace character; an input with consecutive, leading, or trailing
commas (or a whitespace-only segment) does hand an empty recipient to the
transport. -/
theorem C3_no_empty_recipient (s : List Char)
    (h : ∀ seg ∈ splitSep ',' s, ∃ c ∈ seg, pyIsSpace c = false) :
    [] ∉ recipientsList s := by
  intro hmem
  rcases List.mem_map.mp hmem with ⟨seg, hseg, heq⟩
  exact pyStrip_ne_nil (h seg hseg) heq

/-- Witness for C3 on " a@x.com , b@y.com". -/
theorem C3_witness : [] ∉ recipientsList " a@x.com , b@y.com".toList :=
  C3_no_empty_recipient _ (by decide)

/-- C4 as stated is false: the textual encoding is not injective — the
string cell "5" and the integer cell 5 produce the same file, so no
re-reading can recover both, and re-reading the file written for the
string table yields the integer table instead. -/
theorem C4_counterexample :
    writeCSV strTable = writeCSV intTable
    ∧ strTable ≠ intTable
    ∧ readCSV (writeCSV strTable) ≠ strTable := by
  refine ⟨by decide, by decide, by decide⟩

/-- C4 amended: writing then re-reading is the identity for every
`TabularResult` whose cells are numbers or nulls (the shape the code's
aggregation query produces), whose column list is non-empty with names
free of delimiter/quote/line-break characters, and whose rows match the
header width. -/
theorem C4_roundtrip_numeric (r : TabularResult)
    (hcols : r.cols ≠ [])
    (hnames : ∀ name ∈ r.cols, needsQuote name = false)
    (hrows : ∀ row ∈ r.rows, row.length = r.cols.length)
    (hcells : ∀ row ∈ r.rows, ∀ v ∈ row, numericOrNull v = true) :
    readCSV (writeCSV r) = r :=
  writeCSV_readCSV r hcols hnames hrows hcells

/-- Witness for C4 on a two-column table with positive, zero, negative and
null cells. -/
theorem C4_witness : readCSV (writeCSV demoTable) = demoTable :=
  C4_roundtrip_numeric demoTable (by decide) (by decide) (by decide) (by decide)

/-- C5: running the artifact writer twice for the same path with `r1` then
`r2` leaves exactly the serialization of `r2` (any pre-existing file is
removed before each write), and the result never depends on what was on
disk before — overwrite semantics, never append. -/
theorem C5_overwrite_not_append (fs : Option (List Char)) (r1 r2 : TabularResult) :
    artifactWrite (artifactWrite fs r1) r2 = some (writeCSV r2)
    ∧ artifactWrite (artifactWrite fs r1) r2 = artifactWrite none r2 := by
  exact ⟨rfl, rfl⟩

/-- C6: the attachment part of the composed message, once base64-decoded,
equals the artifact's bytes exactly; the message carries the bytes read
at compose time, so they are the bytes sent. -/
theorem C6_attachment_base64_roundtrip (ds : String) (B : List Nat)
    (h : ∀ b ∈ B, b < 256) :
    decodeB64 (composeMsg ds B).attachmentB64 = B :=
  decodeB64_encodeB64 B h

/-- Witness for C6 on a small byte vector. -/
theorem C6_witness :
    decodeB64 (composeMsg "2025-08-04" [77, 0, 255, 10, 128]).attachmentB64
      = [77, 0, 255, 10, 128] :=
  C6_attachment_base64_roundtrip "2025-08-04" [77, 0, 255, 10, 128] (by decide)

/-- C7: when the artifact file is absent at compose time, the delivery
task fails with the attachment-missing error, makes no transport call at
all (empty trace, so no connection is ever opened), and nothing reaches
`sendmail`. -/
theorem C7_missing_attachment_no_transport (recips : List Char) (port : Nat)
    (b : SmtpBehavior) :
    sendEmailTask none recips port b
      = { events := [], sentTo := none,
          outcome := Except.error EmailError.attachmentMissing } := rfl

/-- C8: the security mode is a function of the configured port alone:
port 465 opens a TLS connection directly (never a plain connect, never
STARTTLS); any other port opens a plain connection whose very next call
is the STARTTLS upgrade — before `login` can occur — and never uses
implicit TLS. -/
theorem C8_port_selects_security_mode (recips : List Char) (port : Nat)
    (b : SmtpBehavior) (hc : b.connectOk = true) :
    (port = 465 →
      ((smtpSection recips port b).events.head? = some SmtpEvent.connectSSL
        ∧ SmtpEvent.connectPlain ∉ (smtpSection recips port b).events
        ∧ SmtpEvent.starttls ∉ (smtpSection recips port b).events))
    ∧ (port ≠ 465 →
      ((smtpSection recips port b).events.take 2
          = [SmtpEvent.connectPlain, SmtpEvent.starttls]
        ∧ SmtpEvent.connectSSL ∉ (smtpSection recips port b).events)) := by
  rcases b with ⟨c, st, lg, sn⟩
  cases c
  · exact Bool.noConfusion hc
  · by_cases hp : port = 465
    · subst hp
      refine ⟨fun _ => ?_, fun hne => absurd rfl hne⟩
      cases st <;> cases lg <;> cases sn <;>
        simp [smtpSection, smtpAfterConnect]
    · refine ⟨fun hp2 => absurd hp2 hp, fun _ => ?_⟩
      cases st <;> cases lg <;> cases sn <;>
        simp [smtpSection, smtpAfterConnect, hp]

/-- Witness for C8 at port 587 with all calls succeeding. -/
theorem C8_witness :
    (smtpSection "a@x.com".toList 587 ⟨true, true, true, true⟩).events.take 2
      = [SmtpEvent.connectPlain, SmtpEvent.starttls]
    ∧ SmtpEvent.connectSSL
      ∉ (smtpSection "a@x.com".toList 587 ⟨true, true, true, true⟩).events :=
  (C8_port_selects_security_mode "a@x.com".toList 587 ⟨true, true, true, true⟩
    rfl).2 (by decide)

/-- C9: on every exit path of the extraction stage and of the delivery
stage, every connection that was opened is closed before the stage
returns (the trace ends with the close event), closes match opens, and
each stage closes at most once. -/
theorem C9_connections_released (o : DbOutcome) (prev : Option (List Char))
    (file : Option (List Nat)) (recips : List Char) (port : Nat)
    (b : SmtpBehavior) :
    ((fetchTask o prev).events.count DbEvent.dbClose
        = (fetchTask o prev).events.count DbEvent.dbOpen
      ∧ (fetchTask o prev).events.count DbEvent.dbClose ≤ 1
      ∧ ((fetchTask o prev).events = []
          ∨ (fetchTask o prev).events.getLast? = some DbEvent.dbClose))
    ∧ (quitCount (sendEmailTask file recips port b).events
        = connCount (sendEmailTask file recips port b).events
      ∧ quitCount (sendEmailTask file recips port b).events ≤ 1
      ∧ ((sendEmailTask file recips port b).events = []
          ∨ (sendEmailTask file recips port b).events.getLast?
            = some SmtpEvent.quit)) := by
  constructor
  · cases o <;> simp [fetchTask]
  · rcases b with ⟨c, st, lg, sn⟩
    cases file <;> cases c <;> cases st <;> cases lg <;> cases sn <;>
      by_cases hp : port = 465 <;>
      simp [sendEmailTask, smtpSection, smtpAfterConnect, hp, quitCount, connCount,
        List.count_cons, List.countP_cons]

/-- C10: when the database connection or the query fails, the run errors
out of the extraction stage before any file operation — the artifact file
keeps its previous state byte for byte — and the delivery stage never
runs: no transport call happens and no email is sent. -/
theorem C10_db_failure_no_file_no_email (o : DbOutcome)
    (prev : Option (List Char)) (recips : List Char) (port : Nat)
    (b : SmtpBehavior) (h : dbFailed o = true) :
    (runPipeline o prev recips port b).file = prev
    ∧ (runPipeline o prev recips port b).smtpEvents = []
    ∧ (runPipeline o prev recips port b).emailSent = false
    ∧ ((runPipeline o prev recips port b).outcome
          = Except.error PipelineError.sourceUnavailable
        ∨ (runPipeline o prev recips port b).outcome
          = Except.error PipelineError.queryFailed) := by
  cases o with
  | connectFail => exact ⟨rfl, rfl, rfl, Or.inl rfl⟩
  | queryFail => exact ⟨rfl, rfl, rfl, Or.inr rfl⟩
  | success t => simp [dbFailed] at h

/-- Witness for C10: a failed query with a pre-existing artifact. -/
theorem C10_witness :
    (runPipeline DbOutcome.queryFail (some "old".toList) "a@x.com".toList 587
        ⟨true, true, true, true⟩).file = some "old".toList
    ∧ (runPipeline DbOutcome.queryFail (some "old".toList) "a@x.com".toList 587
        ⟨true, true, true, true⟩).smtpEvents = []
    ∧ (runPipeline DbOutcome.queryFail (some "old".toList) "a@x.com".toList 587
        ⟨true, true, true, true⟩).emailSent = false
    ∧ ((runPipeline DbOutcome.queryFail (some "old".toList) "a@x.com".toList 587
        ⟨true, true, true, true⟩).outcome
          = Except.error PipelineError.sourceUnavailable
        ∨ (runPipeline DbOutcome.queryFail (some "old".toList) "a@x.com".toList 587
        ⟨true, true, true, true⟩).outcome
          = Except.error PipelineError.queryFailed) :=
  C10_db_failure_no_file_no_email DbOutcome.queryFail (some "old".toList)
    "a@x.com".toList 587 ⟨true, true, true, true⟩ rfl

end NewReport
